import Mathlib

/-!
Shallow embedding of the rule-driven data-quality evaluation engine of
`dq_app.py` (class `AnalysisWorker.run`, helper `normalize_missing`, and the
CSV ingestion loop), together with theorems settling the spec claims.

Modelling conventions:
* A pandas cell is `Option String` (`none` = NaN/NaT); a column carries its
  name, an object-dtype flag (`isText`), and its cell list.  Non-text cell
  contents (numbers, dates) are represented by their `str()` rendering, which
  is all the engine ever inspects.
* Scores are exact rationals (`Rat`); the Python floats are modelled at exact
  arithmetic granularity.
* `str.strip` is modelled by `String.trim` (ASCII whitespace); Python's `\w`
  and `\d` character classes are modelled over ASCII.
* `pd.to_datetime(..., errors="coerce")` is abstracted by a per-cell parse
  function `String → Option Int` producing timestamps at day granularity;
  `NaN` input coerces to `NaT` (`Option.bind`).
* The worker's `try/except` wrapper, which converts any raised exception into
  an error signal to the caller, is modelled by `Except String`.
-/

/-- The sentinel token set `_MISSING_LIKE` of `dq_app.py` (line 42). -/
def _MISSING_LIKE : List String :=
  ["", " ", "  ", "nan", "NaN", "NULL", "null", "N/A", "n/a", "NA", "na", "-", "--"]

/-- `Series.astype(str)` on one cell: pandas renders NaN as the string
`"nan"`; a present string is rendered as itself. -/
def cellToStr (c : Option String) : String :=
  match c with
  | none => "nan"
  | some v => v

/-- `str.strip()` over ASCII whitespace: drop whitespace from both ends. -/
def stripStr (s : String) : String :=
  ⟨((s.data.dropWhile Char.isWhitespace).reverse.dropWhile Char.isWhitespace).reverse⟩

/-- Split a character list at every occurrence of `sep` (the splitting
behaviour of `str.split` on a one-character separator). -/
def splitOnChar (sep : Char) : List Char → List (List Char)
  | [] => [[]]
  | c :: cs =>
    let r := splitOnChar sep cs
    if c == sep then [] :: r
    else
      match r with
      | [] => [[c]]
      | h :: t => (c :: h) :: t

/-- One cell of `normalize_missing` (lines 48-51): `astype(str)`, then
`str.strip`, then `replace(list(_MISSING_LIKE), np.nan)`.  Surviving values
keep their stripped form, matching the code's assignment of the stripped
series back into the column. -/
def normalize_cell (c : Option String) : Option String :=
  let s := stripStr (cellToStr c)
  if s ∈ _MISSING_LIKE then none else some s

/-- A column of the in-memory table: name, object-dtype flag, cells. -/
structure Col where
  name : String
  isText : Bool
  cells : List (Option String)
deriving DecidableEq

/-- A table: a row count (`len(df)`) and the ordered columns. -/
structure Table where
  nrows : Nat
  cols : List Col
deriving DecidableEq

/-- Well-formedness: every column has exactly `nrows` cells (the pandas
DataFrame invariant). -/
def Table.WF (t : Table) : Prop :=
  ∀ c ∈ t.cols, c.cells.length = t.nrows

def Table.findCol (t : Table) (n : String) : Option Col :=
  t.cols.find? (fun c => c.name == n)

/-- `n in df.columns`. -/
def Table.hasCol (t : Table) (n : String) : Bool :=
  (t.findCol n).isSome

/-- Cell of column `n` at row `i`; out-of-range or missing column reads as
NaN (never exercised under `Table.WF` plus a presence guard). -/
def Table.cellAt (t : Table) (n : String) (i : Nat) : Option String :=
  match t.findCol n with
  | some c => c.cells.getD i none
  | none => none

/-- `normalize_missing` on one column: only object-dtype columns are
rewritten (line 48's `dtype == "object"` test). -/
def normalize_col (c : Col) : Col :=
  if c.isText then { c with cells := c.cells.map normalize_cell } else c

/-- `normalize_missing` (lines 44-52): pure (`df.copy()`), total, touching
only object-dtype columns. -/
def normalize_missing (t : Table) : Table :=
  { t with cols := t.cols.map normalize_col }

/-- The validated rule configuration as unpacked in lines 284-298:
`pk` is `pk_cols[0]` when the list is non-empty, else `None`. -/
structure Rules where
  pk : Option String
  required : List String
  requiredMissingThresholdPct : Rat
  timestampCol : Option String
  freshnessDays : Int
  fmtEmail : Option String
  fmtPhone : Option String
deriving DecidableEq

/-- ASCII model of the regex class `\w`. -/
def isWordChar (c : Char) : Bool :=
  c.isAlphanum || c == '_'

/-- ASCII model of the regex class `[\w\.-]`. -/
def isLocalChar (c : Char) : Bool :=
  isWordChar c || c == '.' || c == '-'

/-- Full-match recognizer for the email pattern of line 366,
`^[\w\.-]+@[\w\.-]+\.\w+$`: exactly one `@`; non-empty local part over
`[\w.-]`; domain over `[\w.-]` ending in a dot followed by a non-empty
all-word label, with at least one domain character before that dot. -/
def email_match (s : String) : Bool :=
  match splitOnChar '@' s.data with
  | [l, d] =>
    !l.isEmpty && l.all isLocalChar && d.all isLocalChar &&
    (let ps := splitOnChar '.' d
     decide (2 ≤ ps.length) &&
     !(ps.getLastD []).isEmpty && (ps.getLastD []).all isWordChar &&
     !(decide (ps.length = 2) && (ps.headD []).isEmpty))
  | _ => false

/-- Separator class `[- .]` of the phone pattern. -/
def isSepChar (c : Char) : Bool :=
  c == '-' || c == ' ' || c == '.'

/-- Consume exactly `n` ASCII digits from the front. -/
def digitsRun : Nat → List Char → Option (List Char)
  | 0, cs => some cs
  | n + 1, c :: rest => if c.isDigit then digitsRun n rest else none
  | _ + 1, [] => none

/-- The two continuations of an optional separator `[- .]?`. -/
def optSep (cs : List Char) : List (List Char) :=
  match cs with
  | c :: rest => if isSepChar c then [cs, rest] else [cs]
  | [] => [[]]

/-- Full-match recognizer for the phone pattern of line 379,
`^\d{2,3}[- .]?\d{3,4}[- .]?\d{4}$` (match-existence semantics of the
backtracking regex). -/
def phone_match (s : String) : Bool :=
  [2, 3].any fun a =>
    match digitsRun a s.toList with
    | none => false
    | some r1 =>
      (optSep r1).any fun r2 =>
        [3, 4].any fun b =>
          match digitsRun b r2 with
          | none => false
          | some r3 =>
            (optSep r3).any fun r4 =>
              match digitsRun 4 r4 with
              | some [] => true
              | _ => false

/-- The configured column names inspected by the schema check (line 302):
`set(required + [pk] + [timestamp])`, with falsy (empty) names dropped. -/
def configuredCols (r : Rules) : List String :=
  (r.required ++ (r.pk.toList.filter (fun p => p ≠ "")) ++
    (r.timestampCol.toList.filter (fun c => c ≠ ""))).dedup

/-- `schema_missing` (lines 301-304): configured, non-empty names absent
from the table. -/
def schema_missing (t : Table) (r : Rules) : List String :=
  (configuredCols r).filter (fun c => c ≠ "" && !t.hasCol c)

/-- Line 306. -/
def score_schema (t : Table) (r : Rules) : Rat :=
  if schema_missing t r = [] then 100 else 0

/-- Line 307. -/
def hard_fail_schema (t : Table) (r : Rules) : Bool :=
  !(schema_missing t r).isEmpty

/-- `df.size` = rows × columns. -/
def total_cells (t : Table) : Nat :=
  t.nrows * t.cols.length

/-- `df.isnull().sum().sum()` (line 310). -/
def missing_cells (t : Table) : Nat :=
  (t.cols.map (fun c => c.cells.count none)).sum

/-- Line 311: `(1 - missing/total) * 100`. -/
def score_val_comp (t : Table) : Rat :=
  (1 - ((missing_cells t : Rat) / (total_cells t : Rat))) * 100

/-- Rows with any required column absent (line 319's row-wise `isnull().any`). -/
def reqMissingRowIdx (t : Table) (req : List String) : List Nat :=
  (List.range t.nrows).filter (fun i => req.any (fun c => (t.cellAt c i).isNone))

/-- Required-completeness block (lines 313-331).  `df[required_cols]` raises
`KeyError` when a listed column is not in the index; the error propagates to
the worker's outer `except`, modelled by `Except.error`.  On success, returns
(score, hard-fail flag, offending row indices). -/
def requiredMetric (t : Table) (req : List String) (thresh : Rat) :
    Except String (Rat × Bool × List Nat) :=
  if req.isEmpty then .ok (100, false, [])
  else if req.all (fun c => t.hasCol c) then
    let rows := reqMissingRowIdx t req
    let pct : Rat := ((rows.length : Rat) / (t.nrows : Rat)) * 100
    .ok (max 0 (100 - pct), decide (thresh < pct), rows)
  else .error "KeyError: required column not in index"

/-- Rows where the key is NaN (line 339). -/
def pk_null_idx (t : Table) (p : String) : List Nat :=
  (List.range t.nrows).filter (fun i => (t.cellAt p i).isNone)

/-- Rows marked by `duplicated(keep=False) & ~isnull` (line 344): a non-NaN
key value that also occurs at some other row. -/
def pk_dup_idx (t : Table) (p : String) : List Nat :=
  (List.range t.nrows).filter (fun i =>
    (t.cellAt p i).isSome &&
    (List.range t.nrows).any (fun j => decide (j ≠ i) && t.cellAt p j == t.cellAt p i))

/-- `pk_issue_idx` (lines 337-347): union of null rows and duplicate rows. -/
def pk_issue_idx (t : Table) (p : String) : List Nat :=
  (List.range t.nrows).filter (fun i =>
    decide (i ∈ pk_null_idx t p) || decide (i ∈ pk_dup_idx t p))

/-- Primary-key block (lines 333-358): (score, hard-fail flag, offending
rows).  Without a configured, present key: fixed advisory 70.0, no flag. -/
def pkMetric (t : Table) (pk : Option String) : Rat × Bool × List Nat :=
  match pk with
  | some p =>
    if p ≠ "" && t.hasCol p then
      let bad := (pk_issue_idx t p).length
      (max 0 (100 - ((bad : Rat) / (t.nrows : Rat)) * 100),
       decide (0 < (pk_null_idx t p).length) || decide (0 < (pk_dup_idx t p).length),
       pk_issue_idx t p)
    else (70, false, [])
  | none => (70, false, [])

/-- `non_empty` mask of the format block (lines 369, 381): the cell run
through `astype(str)` (NaN → `"nan"`) then stripped is non-empty. -/
def fmt_non_empty (t : Table) (col : String) (i : Nat) : Bool :=
  stripStr (cellToStr (t.cellAt col i)) ≠ ""

/-- `valid` mask (lines 370, 382): pattern match and `non_empty`. -/
def fmt_valid (matcher : String → Bool) (t : Table) (col : String) (i : Nat) : Bool :=
  matcher (cellToStr (t.cellAt col i)) && fmt_non_empty t col i

/-- Per-column offending rows (lines 374, 386): `non_empty & ~valid`. -/
def fmt_issue_idx_col (matcher : String → Bool) (t : Table) (col : String) : List Nat :=
  (List.range t.nrows).filter (fun i => fmt_non_empty t col i && !fmt_valid matcher t col i)

/-- Per-column fraction (lines 371-373, 383-385): valid over non-empty,
defaulting to 1.0 on an empty denominator. -/
def fmt_frac_col (matcher : String → Bool) (t : Table) (col : String) : Rat :=
  let denom := ((List.range t.nrows).filter (fun i => fmt_non_empty t col i)).length
  if 0 < denom
  then (((List.range t.nrows).filter (fun i => fmt_valid matcher t col i)).length : Rat) / (denom : Rat)
  else 1

/-- The configured and present format columns, in the code's email-then-phone
order (lines 364-386). -/
def fmt_cols (t : Table) (r : Rules) : List ((String → Bool) × String) :=
  (match r.fmtEmail with
   | some c => if c ≠ "" && t.hasCol c then [(email_match, c)] else []
   | none => []) ++
  (match r.fmtPhone with
   | some c => if c ≠ "" && t.hasCol c then [(phone_match, c)] else []
   | none => [])

/-- `score_format` (line 388): `np.mean(fmt_scores) * 100`, or 100.0 when no
format column is configured and present. -/
def score_format (t : Table) (r : Rules) : Rat :=
  let scores := (fmt_cols t r).map (fun mc => fmt_frac_col mc.1 t mc.2)
  if scores.isEmpty then 100 else (scores.sum / (scores.length : Rat)) * 100

/-- `fmt_issue_idx` accumulated over the configured format columns. -/
def fmt_issue_idx (t : Table) (r : Rules) : List Nat :=
  (List.range t.nrows).filter (fun i =>
    (fmt_cols t r).any (fun mc => decide (i ∈ fmt_issue_idx_col mc.1 t mc.2)))

/-- Freshness block (lines 390-414): `parse` abstracts
`pd.to_datetime(·, errors="coerce")` at day granularity, `now` is
`pd.Timestamp.now()`.  Returns (score, hard-fail flag, offending rows). -/
def freshnessMetric (parse : String → Option Int) (now : Int) (t : Table)
    (tsCol : Option String) (freshDays : Int) : Rat × Bool × List Nat :=
  match tsCol with
  | some c =>
    if c ≠ "" && t.hasCol c && decide (0 < freshDays) then
      let parsed := (List.range t.nrows).map (fun i => (t.cellAt c i).bind parse)
      match (parsed.filterMap id).max? with
      | none =>
        (0, true, (List.range t.nrows).filter (fun i => (parsed.getD i none).isNone))
      | some m =>
        let age := now - m
        if age ≤ freshDays then (100, false, [])
        else (((max 0 (100 - min 100 ((age - freshDays) * 5)) : Int) : Rat), true, [])
    else (100, false, [])
  | none => (100, false, [])

/-- `sorted(list(issue_idx))` where `issue_idx` is a Python set. -/
def sortUniqIdx (l : List Nat) : List Nat :=
  List.insertionSort (fun a b => a ≤ b) l.dedup

/-- Preview selection (lines 424-427): offending rows sorted ascending and
truncated to 50, or unconditionally the first 50 rows when no row offends. -/
def previewIdx (nrows : Nat) (issue : List Nat) : List Nat :=
  if issue.isEmpty then (List.range nrows).take 50 else (sortUniqIdx issue).take 50

/-- The three terminal grades. -/
inductive Grade
  | PASS
  | CONDITIONAL_PASS
  | FAIL
deriving DecidableEq

/-- Grading decision (lines 449-463). -/
def gradeOf (hardFail : Bool) (scoreFormat scoreValComp : Rat) : Grade :=
  if hardFail then .FAIL
  else if scoreFormat < 95 || scoreValComp < 95 then .CONDITIONAL_PASS
  else .PASS

/-- Round half to even at integer granularity (Python `round` modelled over
exact rationals). -/
def roundHalfEven (q : Rat) : Int :=
  let f := ⌊q⌋
  let r := q - (f : Rat)
  if r < 1 / 2 then f
  else if 1 / 2 < r then f + 1
  else if 2 ∣ f then f else f + 1

/-- `round(x, 2)` of line 483, at exact-rational granularity. -/
def round2 (q : Rat) : Rat :=
  ((roundHalfEven (q * 100) : Rat)) / 100

/-- The emitted result dictionary (lines 481-489); `preview` holds the row
indices of `preview_df` and the notes text is not modelled. -/
structure EvalResult where
  grade : Grade
  score : Rat
  metricsScores : List Rat
  rowCount : Nat
  preview : List Nat
deriving DecidableEq

/-- `AnalysisWorker.run` after ingestion (lines 270-491): the empty-table
check, normalization, the six metrics plus the constant seventh slot, the
issue-row union and preview, grading, and the rounded reference score.  A
raised exception (the `KeyError` of the required block) surfaces through the
outer `except` as an error to the caller. -/
def runEval (parse : String → Option Int) (now : Int) (t0 : Table) (r : Rules) :
    Except String EvalResult :=
  if t0.nrows = 0 then .error "no rows"
  else
    let t := normalize_missing t0
    match requiredMetric t r.required r.requiredMissingThresholdPct with
    | .error e => .error e
    | .ok reqRes =>
      let pkRes := pkMetric t r.pk
      let freshRes := freshnessMetric parse now t r.timestampCol r.freshnessDays
      let issues := reqRes.2.2 ++ pkRes.2.2 ++ fmt_issue_idx t r ++ freshRes.2.2
      let scores : List Rat :=
        [score_schema t r, score_val_comp t, reqRes.1, pkRes.1,
         score_format t r, freshRes.1, 100]
      let hardFail := hard_fail_schema t r || reqRes.2.1 || pkRes.2.1 || freshRes.2.1
      .ok {
        grade := gradeOf hardFail (score_format t r) (score_val_comp t)
        score := round2 (scores.sum / 7)
        metricsScores := scores
        rowCount := t.nrows
        preview := previewIdx t.nrows issues
      }

/-- The encodings attempted by the CSV loader, in priority order (line 256). -/
inductive Enc
  | utf8
  | utf8sig
  | cp949
  | euckr
  | utf16
  | latin1
deriving DecidableEq

def encodings : List Enc :=
  [.utf8, .utf8sig, .cp949, .euckr, .utf16, .latin1]

/-- The strict-decoding loop of lines 257-264: one `pd.read_csv` attempt per
encoding, any exception moving on to the next encoding.  `att e strict`
abstracts one `pd.read_csv` call: `strict = true` is a plain decode,
`strict = false` passes `errors="ignore"`. -/
def tryStrictList (att : Enc → Bool → Except Unit Table) : List Enc → Option Table
  | [] => none
  | e :: rest =>
    match att e true with
    | .ok t => some t
    | .error _ => tryStrictList att rest

/-- The CSV ingestion of lines 255-266: the strict loop over all encodings,
then a single lenient UTF-8 fallback (line 266); an exception there
propagates to the outer `except`. -/
def load_csv (att : Enc → Bool → Except Unit Table) : Except Unit Table :=
  match tryStrictList att encodings with
  | some t => .ok t
  | none => att .utf8 false

/-- Modelled from the spec: the claimed ingestion strategy, absent from the
code — for each encoding in priority order, a strict attempt and then a
lenient retry of the same encoding, stopping at the first success and
failing only when every combination fails. -/
def load_csv_spec_list (att : Enc → Bool → Except Unit Table) : List Enc → Except Unit Table
  | [] => .error ()
  | e :: rest =>
    match att e true with
    | .ok t => .ok t
    | .error _ =>
      match att e false with
      | .ok t => .ok t
      | .error _ => load_csv_spec_list att rest

/-- Modelled from the spec: ingestion over the full priority list. -/
def load_csv_spec (att : Enc → Bool → Except Unit Table) : Except Unit Table :=
  load_csv_spec_list att encodings

/-! ### Concrete inputs used by the claim theorems and witnesses -/

/-- One-column, one-row table with only an `id` column. -/
def tblC1 : Table := ⟨1, [⟨"id", false, [some "1"]⟩]⟩

/-- A rule set requiring a column the table does not have. -/
def rulesC1 : Rules := ⟨none, ["email"], 0, none, 0, none, none⟩

/-- An email column whose second cell normalizes to absent. -/
def tblC2 : Table := ⟨2, [⟨"email", true, [some "a@b.com", some ""]⟩]⟩

/-- Format checking configured on the `email` column only. -/
def rulesC2 : Rules := ⟨none, [], 0, none, 0, some "email", none⟩

/-- Scenario table `[(1,"a@b.com"), (1,"bad"), (2,"")]`. -/
def tblA : Table :=
  ⟨3, [⟨"id", false, [some "1", some "1", some "2"]⟩,
       ⟨"email", true, [some "a@b.com", some "bad", some ""]⟩]⟩

/-- Three-row text table with one absent cell after normalization. -/
def tblC9 : Table := ⟨3, [⟨"a", true, [some "x", some "", some "y"]⟩]⟩

/-- The empty rule set. -/
def rulesE : Rules := ⟨none, [], 0, none, 0, none, none⟩

/-- A timestamp parse function with no successful parse. -/
def pN : String → Option Int := fun _ => none

/-- Parse function mapping the token `"d45"` to day 0. -/
def pW : String → Option Int := fun s => if s = "d45" then some 0 else none

/-- One timestamp column holding a value that `pW` parses. -/
def tblW : Table := ⟨1, [⟨"ts", false, [some "d45"]⟩]⟩

/-- A trivial ingested table for the ingestion model. -/
def tbl1 : Table := ⟨1, [⟨"x", false, [some "1"]⟩]⟩

/-- A decode oracle where every strict attempt fails, lenient CP949 would
succeed, and the lenient UTF-8 fallback fails. -/
def att0 : Enc → Bool → Except Unit Table :=
  fun e strict =>
    if strict then .error ()
    else if e == Enc.cp949 then .ok tbl1 else .error ()

/-- A decode oracle where only strict UTF-16 succeeds. -/
def att1 : Enc → Bool → Except Unit Table :=
  fun e strict => if strict && (e == Enc.utf16) then .ok tbl1 else .error ()

/-- A rule set whose primary key names a column absent from `tblC9`. -/
def rW : Rules := ⟨some "zz", [], 0, none, 0, none, none⟩

/-- The result emitted for `tblC9` under the empty rule set: value
completeness 200/3 (one absent cell of three), reference score
`round(1910/21, 2) = 90.95`, conditional pass, first-rows preview. -/
def resC9 : EvalResult :=
  { grade := Grade.CONDITIONAL_PASS
    score := 1819 / 20
    metricsScores := [100, 200 / 3, 100, 70, 100, 100, 100]
    rowCount := 3
    preview := [0, 1, 2] }

/-! ### Helper lemmas -/

theorem normalize_cell_getD_map (l : List (Option String)) (i : Nat) :
    (l.map normalize_cell).getD i none = normalize_cell (l.getD i none) := by
  induction l generalizing i with
  | nil => cases i <;> simp [List.getD] <;> decide
  | cons a as ih =>
    cases i with
    | zero => simp [List.getD]
    | succ n => simpa [List.getD] using ih n

theorem range_map_getD {α : Type} (f : Nat → α) (d : α) (n i : Nat) (h : i < n) :
    ((List.range n).map f).getD i d = f i := by
  rw [List.getD_eq_getElem?_getD, List.getElem?_map, List.getElem?_range h]
  rfl

theorem foldl_max_spec (l : List Int) (a : Int) :
    (l.foldl max a = a ∨ l.foldl max a ∈ l) ∧ a ≤ l.foldl max a ∧
      ∀ x ∈ l, x ≤ l.foldl max a := by
  induction l generalizing a with
  | nil => simp
  | cons b bs ih =>
    obtain ⟨h1, h2, h3⟩ := ih (max a b)
    refine ⟨?_, ?_, ?_⟩
    · rcases h1 with h | h
      · rcases max_choice a b with hc | hc
        · exact Or.inl (by rw [List.foldl_cons, h, hc])
        · exact Or.inr (by rw [List.foldl_cons, h, hc]; exact List.mem_cons_self b bs)
      · exact Or.inr (List.mem_cons_of_mem b h)
    · exact le_trans (le_max_left a b) h2
    · intro x hx
      rcases List.mem_cons.mp hx with rfl | hx
      · exact le_trans (le_max_right a x) h2
      · exact h3 x hx

theorem int_max?_spec (l : List Int) (m : Int) (h : l.max? = some m) :
    m ∈ l ∧ ∀ x ∈ l, x ≤ m := by
  cases l with
  | nil => simp [List.max?] at h
  | cons a as =>
    have hm : as.foldl max a = m := by simpa [List.max?] using h
    obtain ⟨h1, h2, h3⟩ := foldl_max_spec as a
    rw [hm] at h1 h2 h3
    refine ⟨?_, ?_⟩
    · rcases h1 with rfl | h1
      · exact List.mem_cons_self _ _
      · exact List.mem_cons_of_mem _ h1
    · intro x hx
      rcases List.mem_cons.mp hx with rfl | hx
      · exact h2
      · exact h3 x hx

theorem tryStrictList_none (att : Enc → Bool → Except Unit Table) (l : List Enc)
    (h : ∀ e ∈ l, (att e true).toOption = none) :
    tryStrictList att l = none := by
  induction l with
  | nil => rfl
  | cons e rest ih =>
    have he := h e (List.mem_cons_self _ _)
    rw [tryStrictList]
    cases hc : att e true with
    | ok t => rw [hc] at he; simp [Except.toOption] at he
    | error err => exact ih (fun e2 h2 => h e2 (List.mem_cons_of_mem _ h2))

theorem tryStrictList_first (att : Enc → Bool → Except Unit Table)
    (pre : List Enc) (e : Enc) (rest : List Enc) (tb : Table)
    (hpre : ∀ e2 ∈ pre, (att e2 true).toOption = none)
    (he : att e true = .ok tb) :
    tryStrictList att (pre ++ e :: rest) = some tb := by
  induction pre with
  | nil => simp [tryStrictList, he]
  | cons p ps ih =>
    have hp := hpre p (List.mem_cons_self _ _)
    rw [List.cons_append, tryStrictList]
    cases hc : att p true with
    | ok t => rw [hc] at hp; simp [Except.toOption] at hp
    | error err => exact ih (fun e2 h2 => hpre e2 (List.mem_cons_of_mem _ h2))

theorem runEval_ok_shape (parse : String → Option Int) (now : Int) (t : Table) (r : Rules)
    (sr : Rat) (hfb : Bool) (rows : List Nat)
    (hn : ¬ t.nrows = 0)
    (hreq : requiredMetric (normalize_missing t) r.required r.requiredMissingThresholdPct
      = .ok (sr, hfb, rows)) :
    runEval parse now t r = .ok {
      grade := gradeOf (hard_fail_schema (normalize_missing t) r || hfb ||
          (pkMetric (normalize_missing t) r.pk).2.1 ||
          (freshnessMetric parse now (normalize_missing t) r.timestampCol r.freshnessDays).2.1)
        (score_format (normalize_missing t) r) (score_val_comp (normalize_missing t)),
      score := round2 ((([score_schema (normalize_missing t) r,
          score_val_comp (normalize_missing t), sr,
          (pkMetric (normalize_missing t) r.pk).1, score_format (normalize_missing t) r,
          (freshnessMetric parse now (normalize_missing t) r.timestampCol r.freshnessDays).1,
          100] : List Rat).sum) / 7),
      metricsScores := [score_schema (normalize_missing t) r,
          score_val_comp (normalize_missing t), sr,
          (pkMetric (normalize_missing t) r.pk).1, score_format (normalize_missing t) r,
          (freshnessMetric parse now (normalize_missing t) r.timestampCol r.freshnessDays).1,
          100],
      rowCount := (normalize_missing t).nrows,
      preview := previewIdx (normalize_missing t).nrows
        (rows ++ (pkMetric (normalize_missing t) r.pk).2.2 ++
          fmt_issue_idx (normalize_missing t) r ++
          (freshnessMetric parse now (normalize_missing t) r.timestampCol r.freshnessDays).2.2) } := by
  unfold runEval
  rw [if_neg hn]
  simp only [hreq]

/-! ### Claim theorems -/

/-- C1: the claim states that a non-empty `requiredColumns` set naming a
column absent from the table is recovered into schema degradation and never
surfaced as a raised error.  In the code, `df[required_cols]` raises a
`KeyError` before any grade is produced, and the worker's outer `except`
surfaces it as an analysis error to the caller — even though the schema
check had already recorded the degradation (score 0.0, `hardFailSchema`). -/
theorem c1_required_missing_column_raises :
    runEval pN 0 tblC1 rulesC1 = .error "KeyError: required column not in index" ∧
    hard_fail_schema (normalize_missing tblC1) rulesC1 = true ∧
    score_schema (normalize_missing tblC1) rulesC1 = 0 :=
  ⟨rfl, by decide, by rfl⟩

/-- C2: the claim states that cells absent after normalization are excluded
from the format-validity numerator and denominator and never recorded as
offending.  In the code, `astype(str)` renders the absent cell of `tblC2`
(row 1) as the non-empty string `"nan"`, so it enters the denominator
(score 1/2 = 50 instead of the claimed 100) and is recorded as an offending
row. -/
theorem c2_absent_cell_counted_in_format :
    (normalize_missing tblC2).cellAt "email" 1 = none ∧
    fmt_issue_idx (normalize_missing tblC2) rulesC2 = [1] ∧
    score_format (normalize_missing tblC2) rulesC2 = 50 := by
  refine ⟨by decide, by decide, ?_⟩
  have h1 : fmt_cols (normalize_missing tblC2) rulesC2 = [(email_match, "email")] := rfl
  have hd : ((List.range (normalize_missing tblC2).nrows).filter
      (fun i => fmt_non_empty (normalize_missing tblC2) "email" i)).length = 2 := by decide
  have hv : ((List.range (normalize_missing tblC2).nrows).filter
      (fun i => fmt_valid email_match (normalize_missing tblC2) "email" i)).length = 1 := by
    decide
  simp only [score_format, h1, List.map_cons, List.map_nil, List.isEmpty_cons]
  simp only [fmt_frac_col, hd, hv]
  norm_num

/-- C3 counterexample: the claim describes per-encoding strict-then-lenient
retries stopping at the first success, failing only when every combination
fails.  Under the oracle `att0` (all strict attempts fail, lenient CP949
succeeds, lenient UTF-8 fails) the claimed strategy succeeds, but the code
— which retries leniently only with UTF-8, once, after the whole strict
loop — errors out. -/
theorem c3_counterexample :
    load_csv_spec att0 = .ok tbl1 ∧ load_csv att0 = .error () ∧
    load_csv att0 ≠ load_csv_spec att0 := by
  refine ⟨rfl, rfl, ?_⟩
  intro h
  rw [show load_csv att0 = .error () from rfl,
    show load_csv_spec att0 = .ok tbl1 from rfl] at h
  exact Except.noConfusion h

/-- C3 amended: ingestion attempts each encoding in priority order with a
single strict read, any failure moving to the next encoding; the result is
the first strict success, and only when every strict attempt has failed is
one lenient UTF-8 read attempted, whose outcome (success or error) is the
outcome of ingestion. -/
theorem c3_amended (att : Enc → Bool → Except Unit Table) :
    ((∀ e ∈ encodings, (att e true).toOption = none) →
      load_csv att = att Enc.utf8 false) ∧
    (∀ pre e rest tb, encodings = pre ++ e :: rest →
      (∀ e2 ∈ pre, (att e2 true).toOption = none) →
      att e true = .ok tb → load_csv att = .ok tb) := by
  constructor
  · intro h
    unfold load_csv
    rw [tryStrictList_none att encodings h]
  · intro pre e rest tb henc hpre he
    unfold load_csv
    rw [henc, tryStrictList_first att pre e rest tb hpre he]

/-- C3 witness: under `att1` only strict UTF-16 succeeds, and ingestion
returns its table. -/
theorem c3_witness : load_csv att1 = .ok tbl1 :=
  (c3_amended att1).2 [.utf8, .utf8sig, .cp949, .euckr] .utf16 [.latin1] tbl1 rfl
    (by decide) rfl

/-- C4: the grade is FAIL exactly when one of the four hard-fail flags is
set; otherwise it is CONDITIONAL_PASS exactly when the format score or the
value-completeness score is below 95, and PASS otherwise — the grading
function takes no other input. -/
theorem c4_grade_characterization (a b c d : Bool) (f v : Rat) :
    (gradeOf (a || b || c || d) f v = Grade.FAIL ↔
      (a = true ∨ b = true ∨ c = true ∨ d = true)) ∧
    (gradeOf (a || b || c || d) f v = Grade.CONDITIONAL_PASS ↔
      ((a = false ∧ b = false ∧ c = false ∧ d = false) ∧ (f < 95 ∨ v < 95))) ∧
    (gradeOf (a || b || c || d) f v = Grade.PASS ↔
      ((a = false ∧ b = false ∧ c = false ∧ d = false) ∧ ¬f < 95 ∧ ¬v < 95)) := by
  cases a <;> cases b <;> cases c <;> cases d <;>
    by_cases hf : f < 95 <;> by_cases hv : v < 95 <;>
      simp [gradeOf, hf, hv]

/-- C5: normalization (a pure, total function) leaves non-object columns
untouched, and a text cell holding a value becomes absent exactly when its
stripped value lies in the sentinel set `_MISSING_LIKE` (case-sensitive). -/
theorem c5_normalize_absent_iff (c : Col) (i : Nat) :
    (c.isText = false → normalize_col c = c) ∧
    (c.isText = true → ∀ v : String, c.cells.getD i none = some v →
      ((normalize_col c).cells.getD i none = none ↔ stripStr v ∈ _MISSING_LIKE)) := by
  constructor
  · intro h
    simp [normalize_col, h]
  · intro h v hv
    have hcol : (normalize_col c).cells = c.cells.map normalize_cell := by
      simp [normalize_col, h]
    rw [hcol, normalize_cell_getD_map, hv]
    by_cases hm : stripStr v ∈ _MISSING_LIKE
    · simp [normalize_cell, cellToStr, hm]
    · simp [normalize_cell, cellToStr, hm]

/-- C5 witness: `" N/A "` strips to a sentinel and becomes absent; `" ok "`
does not; a non-object column is untouched. -/
theorem c5_witness :
    (normalize_col ⟨"v", true, [some " N/A "]⟩).cells.getD 0 none = none ∧
    (normalize_col ⟨"w", true, [some " ok "]⟩).cells.getD 0 none ≠ none ∧
    normalize_col ⟨"n", false, [some " N/A "]⟩ = ⟨"n", false, [some " N/A "]⟩ := by
  refine ⟨?_, ?_, ?_⟩
  · exact ((c5_normalize_absent_iff ⟨"v", true, [some " N/A "]⟩ 0).2 rfl " N/A " rfl).mpr
      (by decide)
  · intro hcontra
    exact absurd
      (((c5_normalize_absent_iff ⟨"w", true, [some " ok "]⟩ 0).2 rfl " ok " rfl).mp hcontra)
      (by decide)
  · exact (c5_normalize_absent_iff ⟨"n", false, [some " N/A "]⟩ 0).1 rfl

/-- C10: a configured primary key naming a column absent from the table
takes the no-key branch — fixed advisory score 70.0, no `hardFailPk`, no
offending rows — while the schema-conformity flag is the one that fires. -/
theorem c10_missing_pk_is_advisory (t : Table) (r : Rules) (p : String)
    (hp : r.pk = some p) (hne : p ≠ "") (hmiss : t.hasCol p = false) :
    pkMetric t r.pk = (70, false, []) ∧ hard_fail_schema t r = true := by
  constructor
  · rw [hp]
    simp [pkMetric, hmiss]
  · have hmem : p ∈ schema_missing t r := by
      apply List.mem_filter.mpr
      refine ⟨?_, ?_⟩
      · apply List.mem_dedup.mpr
        refine List.mem_append.mpr (Or.inl (List.mem_append.mpr (Or.inr ?_)))
        rw [hp]
        simp [hne]
      · simp [hne, hmiss]
    cases hsm : schema_missing t r with
    | nil => rw [hsm] at hmem; cases hmem
    | cons x l => simp [hard_fail_schema, hsm]

/-- C10 witness: `rW` configures primary key `"zz"`, absent from `tblC9`. -/
theorem c10_witness :
    pkMetric tblC9 rW.pk = (70, false, []) ∧ hard_fail_schema tblC9 rW = true :=
  c10_missing_pk_is_advisory tblC9 rW "zz" rfl (by decide) (by decide)

/-- Unfolding of the freshness metric when the check is active: timestamp
column configured (non-empty name), present, positive allowance. -/
theorem freshnessMetric_configured (parse : String → Option Int) (now : Int) (t : Table)
    (c : String) (fd : Int) (hc : c ≠ "") (hcol : t.hasCol c = true) (hfd : 0 < fd) :
    freshnessMetric parse now t (some c) fd =
      (let parsed := (List.range t.nrows).map (fun i => (t.cellAt c i).bind parse)
       match (parsed.filterMap id).max? with
       | none =>
         ((0 : Rat), true, (List.range t.nrows).filter (fun i => (parsed.getD i none).isNone))
       | some m =>
         let age := now - m
         if age ≤ fd then ((100 : Rat), false, ([] : List Nat))
         else (((max 0 (100 - min 100 ((age - fd) * 5)) : Int) : Rat), true, [])) := by
  have hguard : (decide (c ≠ "") && t.hasCol c && decide (0 < fd)) = true := by
    simp [hc, hcol, hfd]
  simp only [freshnessMetric, hguard, eq_self_iff_true, if_true]

/-- C6: with a configured, present timestamp column and a positive
allowance, the freshness metric scores 0 with a hard fail and flags every
unparsable row when nothing parses; with `m` the maximum parseable
timestamp, it scores 100 with no hard fail when `now - m ≤ freshnessDays`,
and otherwise decays linearly (5 points per day over the allowance, floored
at 0, capped deduction 100) with a hard fail and no offending rows; when
the check is unconfigured, the column missing, or the allowance
non-positive, the score is 100 with no hard fail. -/
theorem c6_freshness (parse : String → Option Int) (now : Int) (t : Table)
    (c : String) (fd : Int) :
    (freshnessMetric parse now t none fd = (100, false, [])) ∧
    (t.hasCol c = false → freshnessMetric parse now t (some c) fd = (100, false, [])) ∧
    (fd ≤ 0 → freshnessMetric parse now t (some c) fd = (100, false, [])) ∧
    (c ≠ "" → t.hasCol c = true → 0 < fd →
      ((∀ i, i < t.nrows → (t.cellAt c i).bind parse = none) →
        freshnessMetric parse now t (some c) fd = (0, true, List.range t.nrows)) ∧
      (∀ m, (∃ i, i < t.nrows ∧ (t.cellAt c i).bind parse = some m) →
        (∀ x i, i < t.nrows → (t.cellAt c i).bind parse = some x → x ≤ m) →
        ((now - m ≤ fd →
            freshnessMetric parse now t (some c) fd = (100, false, [])) ∧
         (fd < now - m →
            freshnessMetric parse now t (some c) fd =
              (((max 0 (100 - min 100 ((now - m - fd) * 5)) : Int) : Rat), true, []))))) := by
  refine ⟨rfl, ?_, ?_, ?_⟩
  · intro h
    simp [freshnessMetric, h]
  · intro h
    simp [freshnessMetric, not_lt.mpr h]
  · intro hc hcol hfd
    rw [freshnessMetric_configured parse now t c fd hc hcol hfd]
    constructor
    · intro hall
      have hfm : (((List.range t.nrows).map
          (fun i => (t.cellAt c i).bind parse)).filterMap id) = [] := by
        rw [List.filterMap_eq_nil_iff]
        intro a ha
        obtain ⟨i, hi, rfl⟩ := List.mem_map.mp ha
        exact hall i (List.mem_range.mp hi)
      have hfilter : ((List.range t.nrows).filter
          (fun i => ((((List.range t.nrows).map
            (fun i => (t.cellAt c i).bind parse)).getD i none)).isNone))
          = List.range t.nrows := by
        rw [List.filter_eq_self]
        intro i hi
        rw [range_map_getD _ _ _ _ (List.mem_range.mp hi),
          hall i (List.mem_range.mp hi)]
        rfl
      simp only [hfm, List.max?_nil, hfilter]
    · intro m hex hub
      obtain ⟨i0, hi0, hparse0⟩ := hex
      have hmem : m ∈ ((List.range t.nrows).map
          (fun i => (t.cellAt c i).bind parse)).filterMap id := by
        apply List.mem_filterMap.mpr
        exact ⟨some m, List.mem_map.mpr ⟨i0, List.mem_range.mpr hi0, hparse0⟩, rfl⟩
      have hbound : ∀ x ∈ ((List.range t.nrows).map
          (fun i => (t.cellAt c i).bind parse)).filterMap id, x ≤ m := by
        intro x hx
        obtain ⟨a, ha, hax⟩ := List.mem_filterMap.mp hx
        obtain ⟨i, hi, hia⟩ := List.mem_map.mp ha
        refine hub x i (List.mem_range.mp hi) ?_
        rw [hia]
        exact hax
      have hmax : (((List.range t.nrows).map
          (fun i => (t.cellAt c i).bind parse)).filterMap id).max? = some m := by
        cases hq : (((List.range t.nrows).map
            (fun i => (t.cellAt c i).bind parse)).filterMap id).max? with
        | none =>
          cases hl : ((List.range t.nrows).map
              (fun i => (t.cellAt c i).bind parse)).filterMap id with
          | nil => rw [hl] at hmem; cases hmem
          | cons x xs => rw [hl] at hq; simp [List.max?] at hq
        | some m2 =>
          obtain ⟨hm2mem, hm2ub⟩ := int_max?_spec _ _ hq
          rw [le_antisymm (hbound m2 hm2mem) (hm2ub m hmem)]
      simp only [hmax]
      constructor
      · intro hle
        rw [if_pos hle]
      · intro hgt
        rw [if_neg (not_le.mpr hgt)]

/-- C6 witness: one row parsing to day 0, evaluated at day 45 with a 30-day
allowance: 15 days over, score 100 − 75 = 25, hard fail, no offending
rows. -/
theorem c6_witness : freshnessMetric pW 45 tblW (some "ts") 30 = (25, true, []) := by
  have h := ((c6_freshness pW 45 tblW "ts" 30).2.2.2 (by decide) (by decide) (by decide)).2
  have hub : ∀ x i, i < tblW.nrows → (tblW.cellAt "ts" i).bind pW = some x → x ≤ 0 := by
    intro x i hi hx
    have hi0 : i = 0 := by
      have : tblW.nrows = 1 := rfl
      omega
    subst hi0
    rw [show (tblW.cellAt "ts" 0).bind pW = some 0 from by decide] at hx
    simp at hx
    omega
  have h2 := (h 0 ⟨0, by decide, by decide⟩ hub).2 (by decide)
  rw [h2, show (max 0 (100 - min 100 ((45 - 0 - 30) * 5)) : Int) = 25 from by decide]
  norm_num

/-- Unfolding of the primary-key metric when a key is configured (non-empty
name) and present. -/
theorem pkMetric_configured (t : Table) (p : String) (hp : p ≠ "") (hcol : t.hasCol p = true) :
    pkMetric t (some p) =
      (max 0 (100 - (((pk_issue_idx t p).length : Rat) / (t.nrows : Rat)) * 100),
       decide (0 < (pk_null_idx t p).length) || decide (0 < (pk_dup_idx t p).length),
       pk_issue_idx t p) := by
  have hguard : (decide (p ≠ "") && t.hasCol p) = true := by
    simp [hp, hcol]
  simp only [pkMetric, hguard, eq_self_iff_true, if_true]

/-- C7: with a configured, present key — `pkNull` rows are exactly the rows
with an absent key; `pkDup` rows are exactly the rows holding a non-absent
key value that occurs at some other row (every participating row); the
offending set is their union; the score is
`max 0 (100 − 100·badRows/rowCount)`; `hardFailPk` holds iff `pkNull > 0`
or `pkDup > 0`; and on the scenario table `[(1,"a@b.com"),(1,"bad"),(2,"")]`
with key `id`, `pkDup = 2`. -/
theorem c7_pk_integrity (t : Table) (p : String) (hp : p ≠ "") (hcol : t.hasCol p = true) :
    ((pkMetric t (some p)).1 =
      max 0 (100 - 100 * (((pk_issue_idx t p).length : Rat) / (t.nrows : Rat)))) ∧
    ((pkMetric t (some p)).2.2 = pk_issue_idx t p) ∧
    ((pkMetric t (some p)).2.1 = true ↔
      0 < (pk_null_idx t p).length ∨ 0 < (pk_dup_idx t p).length) ∧
    (∀ i, i ∈ pk_null_idx t p ↔ i < t.nrows ∧ t.cellAt p i = none) ∧
    (∀ i, i ∈ pk_dup_idx t p ↔
      i < t.nrows ∧ ∃ v, t.cellAt p i = some v ∧
        ∃ j, j < t.nrows ∧ j ≠ i ∧ t.cellAt p j = some v) ∧
    (∀ i, i ∈ pk_issue_idx t p ↔ i ∈ pk_null_idx t p ∨ i ∈ pk_dup_idx t p) ∧
    (pk_dup_idx (normalize_missing tblA) "id").length = 2 := by
  have hm := pkMetric_configured t p hp hcol
  have hdup : ∀ i, i ∈ pk_dup_idx t p ↔
      i < t.nrows ∧ ∃ v, t.cellAt p i = some v ∧
        ∃ j, j < t.nrows ∧ j ≠ i ∧ t.cellAt p j = some v := by
    intro i
    simp only [pk_dup_idx, List.mem_filter, List.mem_range, Bool.and_eq_true,
      List.any_eq_true, decide_eq_true_eq, beq_iff_eq, Option.isSome_iff_exists]
    constructor
    · rintro ⟨hi, ⟨v, hv⟩, j, hj, hne, heq⟩
      exact ⟨hi, v, hv, j, hj, hne, heq.trans hv⟩
    · rintro ⟨hi, v, hv, j, hj, hne, hjv⟩
      exact ⟨hi, ⟨v, hv⟩, j, hj, hne, hjv.trans hv.symm⟩
  have hnull : ∀ i, i ∈ pk_null_idx t p ↔ i < t.nrows ∧ t.cellAt p i = none := by
    intro i
    simp [pk_null_idx, List.mem_filter, List.mem_range, Option.isNone_iff_eq_none]
  refine ⟨?_, ?_, ?_, hnull, hdup, ?_, by decide⟩
  · rw [hm]
    rw [mul_comm (((pk_issue_idx t p).length : Rat) / (t.nrows : Rat)) 100]
  · rw [hm]
  · rw [hm]
    simp
  · intro i
    simp only [pk_issue_idx, List.mem_filter, List.mem_range, Bool.or_eq_true,
      decide_eq_true_eq]
    constructor
    · rintro ⟨_, h⟩
      exact h
    · intro h
      refine ⟨?_, h⟩
      rcases h with h | h
      · exact ((hnull i).mp h).1
      · exact ((hdup i).mp h).1

/-- C7 witness: on the scenario table, the key has duplicate rows `{0, 1}`,
the hard-fail flag fires, and the offending set is the issue-row set. -/
theorem c7_witness :
    (pkMetric (normalize_missing tblA) (some "id")).2.1 = true ∧
    (pkMetric (normalize_missing tblA) (some "id")).2.2
      = pk_issue_idx (normalize_missing tblA) "id" := by
  have h := c7_pk_integrity (normalize_missing tblA) "id" (by decide) (by decide)
  exact ⟨(h.2.2.1).mpr (Or.inr (by decide)), h.2.1⟩

/-- C8: when the offending-row union is non-empty, the preview is the union
sorted ascending, deduplicated, truncated to 50 entries, and every previewed
row belongs to the union; when the union is empty, the preview is
unconditionally the first 50 rows, so the preview is never empty for a
non-empty table; and a successful run previews exactly the union of the
required, primary-key, format and freshness offending-row sets. -/
theorem c8_preview (nrows : Nat) (issue : List Nat)
    (parse : String → Option Int) (now : Int) (t : Table) (r : Rules)
    (res : EvalResult) (sr : Rat) (hfb : Bool) (rows : List Nat) :
    (issue ≠ [] →
      previewIdx nrows issue = (sortUniqIdx issue).take 50 ∧
      List.Sorted (fun x y => x ≤ y) (previewIdx nrows issue) ∧
      (previewIdx nrows issue).length ≤ 50 ∧
      (∀ i ∈ previewIdx nrows issue, i ∈ issue) ∧
      previewIdx nrows issue ≠ []) ∧
    (issue = [] → previewIdx nrows issue = (List.range nrows).take 50) ∧
    (0 < nrows → previewIdx nrows issue ≠ []) ∧
    (runEval parse now t r = .ok res →
      requiredMetric (normalize_missing t) r.required r.requiredMissingThresholdPct
        = .ok (sr, hfb, rows) →
      res.preview = previewIdx (normalize_missing t).nrows
        (rows ++ (pkMetric (normalize_missing t) r.pk).2.2 ++
          fmt_issue_idx (normalize_missing t) r ++
          (freshnessMetric parse now (normalize_missing t) r.timestampCol
            r.freshnessDays).2.2)) := by
  have hne_eq : issue ≠ [] → previewIdx nrows issue = (sortUniqIdx issue).take 50 := by
    intro hne
    have : issue.isEmpty = false := by
      cases issue with
      | nil => exact absurd rfl hne
      | cons x xs => rfl
    simp [previewIdx, this]
  have hlen : issue ≠ [] → 0 < (sortUniqIdx issue).length := by
    intro hne
    unfold sortUniqIdx
    rw [(List.perm_insertionSort (fun a b => a ≤ b) issue.dedup).length_eq]
    rw [List.length_pos]
    intro hnil
    exact hne ((List.dedup_eq_nil issue).mp hnil)
  refine ⟨?_, ?_, ?_, ?_⟩
  · intro hne
    refine ⟨hne_eq hne, ?_, ?_, ?_, ?_⟩
    · rw [hne_eq hne]
      exact List.Pairwise.sublist (List.take_sublist 50 _)
        (List.sorted_insertionSort (fun a b => a ≤ b) issue.dedup)
    · rw [hne_eq hne]
      exact List.length_take_le 50 _
    · intro i hi
      rw [hne_eq hne] at hi
      exact (List.mem_dedup.mp
        ((List.perm_insertionSort (fun a b => a ≤ b) issue.dedup).subset
          (List.take_subset 50 _ hi)))
    · rw [hne_eq hne]
      have h1 := hlen hne
      have h2 := List.length_take 50 (sortUniqIdx issue)
      intro hnil
      rw [hnil] at h2
      simp only [List.length_nil] at h2
      omega
  · intro hnil
    simp [previewIdx, hnil]
  · intro hpos
    by_cases hissue : issue = []
    · subst hissue
      simp only [previewIdx, List.isEmpty_nil, if_true]
      have h2 := List.length_take 50 (List.range nrows)
      intro hnil
      rw [hnil] at h2
      simp only [List.length_nil, List.length_range] at h2
      omega
    · rw [hne_eq hissue]
      have h1 := hlen hissue
      have h2 := List.length_take 50 (sortUniqIdx issue)
      intro hnil
      rw [hnil] at h2
      simp only [List.length_nil] at h2
      omega
  · intro hrun hreq
    have hn : ¬ t.nrows = 0 := by
      intro h0
      unfold runEval at hrun
      rw [if_pos h0] at hrun
      exact Except.noConfusion hrun
    have hshape := runEval_ok_shape parse now t r sr hfb rows hn hreq
    rw [hshape] at hrun
    injection hrun with h
    subst h
    rfl

/-- C8 witness: a non-empty union is sorted, deduplicated and contained in
itself; an empty union previews the first rows. -/
theorem c8_witness :
    previewIdx 5 [3, 1, 3] = [1, 3] ∧
    (∀ i ∈ previewIdx 5 [3, 1, 3], i ∈ [3, 1, 3]) ∧
    previewIdx 2 ([] : List Nat) = [0, 1] := by
  have h := c8_preview 5 [3, 1, 3] pN 0 tblC9 rulesE ⟨Grade.PASS, 0, [], 0, []⟩ 0 false []
  have h0 := c8_preview 2 ([] : List Nat) pN 0 tblC9 rulesE ⟨Grade.PASS, 0, [], 0, []⟩ 0 false []
  refine ⟨((h.1 (by decide)).1).trans (by decide), (h.1 (by decide)).2.2.2.1,
    (h0.2.1 rfl).trans (by decide)⟩

theorem score_val_comp_c9 : score_val_comp (normalize_missing tblC9) = 200 / 3 := by
  have h1 : missing_cells (normalize_missing tblC9) = 1 := by decide
  have h2 : total_cells (normalize_missing tblC9) = 3 := by decide
  unfold score_val_comp
  rw [h1, h2]
  norm_num

theorem runEval_c9 : runEval pN 0 tblC9 rulesE = .ok resC9 := by
  have hshape := runEval_ok_shape pN 0 tblC9 rulesE 100 false [] (by decide) rfl
  rw [hshape]
  congr 1
  show EvalResult.mk _ _ _ _ _ = EvalResult.mk _ _ _ _ _
  rw [EvalResult.mk.injEq]
  have hflags : (hard_fail_schema (normalize_missing tblC9) rulesE || false ||
      (pkMetric (normalize_missing tblC9) rulesE.pk).2.1 ||
      (freshnessMetric pN 0 (normalize_missing tblC9) rulesE.timestampCol
        rulesE.freshnessDays).2.1) = false := by decide
  have hfmt : score_format (normalize_missing tblC9) rulesE = 100 := rfl
  have hschema : score_schema (normalize_missing tblC9) rulesE = 100 := rfl
  have hpk : (pkMetric (normalize_missing tblC9) rulesE.pk).1 = 70 := rfl
  have hfresh : (freshnessMetric pN 0 (normalize_missing tblC9) rulesE.timestampCol
      rulesE.freshnessDays).1 = 100 := rfl
  refine ⟨?_, ?_, ?_, rfl, by decide⟩
  · rw [score_val_comp_c9, hflags, hfmt]
    have hlt : ((200 : Rat) / 3 < 95) := by norm_num
    have hge : ¬((100 : Rat) < 95) := by norm_num
    simp [gradeOf, hlt, hge]
  · rw [score_val_comp_c9, hfmt, hschema, hpk, hfresh]
    have hsum : (([100, 200 / 3, 100, 70, 100, 100, 100] : List Rat).sum) / 7
        = 1910 / 21 := by
      simp only [List.sum_cons, List.sum_nil]
      norm_num
    rw [hsum]
    unfold round2 roundHalfEven
    rw [show ((1910 : Rat) / 21) * 100 = 191000 / 21 from by norm_num]
    have hfl : ⌊(191000 / 21 : Rat)⌋ = 9095 := by
      rw [Int.floor_eq_iff]
      constructor <;> norm_num
    rw [hfl]
    norm_num
  · rw [score_val_comp_c9, hfmt, hschema, hpk, hfresh]

/-- C9 counterexample: the claim states the reported `referenceScore` equals
the unweighted mean of the seven metric scores.  On `tblC9` under the empty
rule set, the mean is 1910/21 = 90.952…, but the code reports
`round(total_score, 2)` = 90.95 — the rounded mean, not the mean. -/
theorem c9_counterexample :
    (runEval pN 0 tblC9 rulesE).toOption.map (fun res => res.score) = some (1819 / 20) ∧
    (runEval pN 0 tblC9 rulesE).toOption.map (fun res => res.metricsScores.sum / 7)
      = some (1910 / 21) ∧
    ((1819 : Rat) / 20) ≠ 1910 / 21 := by
  rw [runEval_c9]
  refine ⟨rfl, ?_, by norm_num⟩
  show some (([100, 200 / 3, 100, 70, 100, 100, 100] : List Rat).sum / 7)
      = some (1910 / 21)
  congr 1
  simp only [List.sum_cons, List.sum_nil]
  norm_num

/-- C9 amended: the reported score is the unweighted mean of the seven
metric scores rounded to two decimals; the metric list has exactly seven
entries whose reserved seventh slot is the literal 100.0; and the grade
factors through `gradeOf` applied only to the four hard-fail flags, the
format score and the value-completeness score — the mean participates
nowhere in the grade. -/
theorem c9_reference_score (parse : String → Option Int) (now : Int) (t : Table)
    (r : Rules) (res : EvalResult) (sr : Rat) (hfb : Bool) (rows : List Nat)
    (hreq : requiredMetric (normalize_missing t) r.required r.requiredMissingThresholdPct
      = .ok (sr, hfb, rows))
    (hrun : runEval parse now t r = .ok res) :
    res.score = round2 (res.metricsScores.sum / 7) ∧
    res.metricsScores.length = 7 ∧
    res.metricsScores.getD 6 0 = 100 ∧
    res.grade = gradeOf (hard_fail_schema (normalize_missing t) r || hfb ||
        (pkMetric (normalize_missing t) r.pk).2.1 ||
        (freshnessMetric parse now (normalize_missing t) r.timestampCol
          r.freshnessDays).2.1)
      (score_format (normalize_missing t) r) (score_val_comp (normalize_missing t)) := by
  have hn : ¬ t.nrows = 0 := by
    intro h0
    unfold runEval at hrun
    rw [if_pos h0] at hrun
    exact Except.noConfusion hrun
  have hshape := runEval_ok_shape parse now t r sr hfb rows hn hreq
  rw [hshape] at hrun
  injection hrun with h
  subst h
  exact ⟨rfl, rfl, rfl, rfl⟩

/-- C9 witness: the amended statement evaluated on the concrete run of
`tblC9` under the empty rule set. -/
theorem c9_witness :
    resC9.score = round2 (resC9.metricsScores.sum / 7) ∧
    resC9.metricsScores.length = 7 ∧
    resC9.metricsScores.getD 6 0 = 100 ∧
    resC9.grade = gradeOf (hard_fail_schema (normalize_missing tblC9) rulesE || false ||
        (pkMetric (normalize_missing tblC9) rulesE.pk).2.1 ||
        (freshnessMetric pN 0 (normalize_missing tblC9) rulesE.timestampCol
          rulesE.freshnessDays).2.1)
      (score_format (normalize_missing tblC9) rulesE)
      (score_val_comp (normalize_missing tblC9)) :=
  c9_reference_score pN 0 tblC9 rulesE resC9 100 false [] rfl runEval_c9
